import Mathlib

/-!
Verification of the DOTS simulation (config.py, dot.py, simulation.py, main.py).

The Python source is shallowly embedded:
  * float arithmetic is modelled exactly, over ℚ where the code only uses
    field operations and comparisons, and over ℝ where the code calls
    sqrt / trigonometric functions (vector normalisation, polar angles);
  * the pygame clock (`pygame.time.get_ticks`) is modelled as an explicit
    integer-millisecond parameter threaded through the operations;
  * calls to `random.uniform` / `random.randint` are modelled as explicit
    oracle parameters (the drawn values are inputs of the embedded
    functions, with range hypotheses where a claim depends on the range);
  * presentation-only state (colors, fonts, the GUI) is omitted: no claim
    mentions it and it never feeds back into the simulation core.
-/

/-! ### Constants from config.py -/

def WIDTH : ℚ := 1080
def HEIGHT : ℚ := 1080

/-- config.py: `BOUNDARY_FACTOR = 0.9`. -/
def BOUNDARY_FACTOR : ℚ := 9/10

/-! ### define_shapes: the Ameba (blob) radius generation (simulation.py lines 57-73)

The noise values `simplex.noise2(...)` are modelled as an oracle
`z : ℕ → ℚ` giving the noise sample at the i-th of the 360 blob angles
(OpenSimplex `noise2` always returns a value in [-1, 1]). -/

/-- simulation.py line 46:
`max_extent_radius = int(min(WIDTH, HEIGHT) * BOUNDARY_FACTOR / 2)` = 486. -/
def maxExtentRadius : ℚ := 486

/-- simulation.py line 57: `base_r_factor = 0.55`. -/
def baseRFactor : ℚ := 55/100

/-- simulation.py line 57: `noise_amplitude_factor = 0.4`. -/
def noiseAmplitudeFactor : ℚ := 4/10

/-- simulation.py line 60: `base_r = base_r_factor * max_extent_radius`. -/
def baseR : ℚ := baseRFactor * maxExtentRadius

/-- simulation.py line 60: `amplitude = noise_amplitude_factor * base_r`. -/
def amplitude : ℚ := noiseAmplitudeFactor * baseR

/-- Python `max` over a non-empty list (`max(xs)` folds `max` over the
elements, seeded with the first element). On `[]` we return 0; the code
only applies it to the 360-element factor list. -/
def pyMax : List ℚ → ℚ
  | [] => 0
  | x :: xs => xs.foldl max x

/-- simulation.py lines 61-64, one loop iteration: the first-pass radius
factor for angle index `i`: `max(base_r * 0.1, base_r + amplitude * noise)`
divided by `max_extent_radius`. -/
def genRadiusFactor (z : ℕ → ℚ) (i : ℕ) : ℚ :=
  max (baseR * (1/10)) (baseR + amplitude * z i) / maxExtentRadius

/-- simulation.py lines 65-66: the maximum generated factor, with the
fallbacks for an empty list (dead: the list has 360 elements) and for a
maximum below 1e-6. -/
def maxGenRFactor (z : ℕ → ℚ) : ℚ :=
  let m := pyMax ((List.range 360).map (genRadiusFactor z))
  if m ≤ 1/1000000 then baseRFactor else m

/-- simulation.py line 67: `scale_factor = 1.0 / max_gen_r_factor`. -/
def scaleFactor (z : ℕ → ℚ) : ℚ := 1 / maxGenRFactor z

/-- simulation.py lines 68-71, the second pass: the final blob radius at
angle index `i`:
`min(max(base_r * 0.2, base_r + amplitude * noise) * scale_factor, max_extent_radius)`. -/
def amebaRadius (z : ℕ → ℚ) (i : ℕ) : ℚ :=
  min (max (baseR * (2/10)) (baseR + amplitude * z i) * scaleFactor z) maxExtentRadius

/-- The radius generation as described by the specification: a single
clamp at `base_radius * 0.2` (the spec does not mention the first pass
clamping at `base_radius * 0.1` instead), rescale by
`1 / max(generated_factor)`, clamp again to the extent. -/
def amebaRadiusSpec (z : ℕ → ℚ) (i : ℕ) : ℚ :=
  min (max (baseR * (2/10)) (baseR + amplitude * z i) *
        (1 / pyMax ((List.range 360).map
          (fun j => max (baseR * (2/10)) (baseR + amplitude * z j) / maxExtentRadius))))
    maxExtentRadius

/-! #### pyMax lemmas -/

lemma le_foldl_max (a : ℚ) (l : List ℚ) : a ≤ l.foldl max a := by
  induction l generalizing a with
  | nil => exact le_refl a
  | cons x xs ih =>
    calc a ≤ max a x := le_max_left a x
    _ ≤ xs.foldl max (max a x) := ih (max a x)

lemma foldl_max_le (a c : ℚ) (l : List ℚ) (ha : a ≤ c) (h : ∀ x ∈ l, x ≤ c) :
    l.foldl max a ≤ c := by
  induction l generalizing a with
  | nil => exact ha
  | cons x xs ih =>
    exact ih (max a x) (max_le ha (h x (List.mem_cons_self x xs)))
      (fun y hy => h y (List.mem_cons_of_mem x hy))

lemma foldl_max_mem (a : ℚ) (l : List ℚ) : l.foldl max a = a ∨ l.foldl max a ∈ l := by
  induction l generalizing a with
  | nil => exact Or.inl rfl
  | cons x xs ih =>
    simp only [List.foldl_cons]
    rcases ih (max a x) with h | h
    · rcases max_cases a x with ⟨he, _⟩ | ⟨he, _⟩
      · exact Or.inl (by rw [h, he])
      · exact Or.inr (by rw [h, he]; exact List.mem_cons_self x xs)
    · exact Or.inr (List.mem_cons_of_mem x h)

lemma mem_le_foldl_max (a x : ℚ) (l : List ℚ) (hx : x ∈ l) : x ≤ l.foldl max a := by
  induction l generalizing a with
  | nil => cases hx
  | cons y ys ih =>
    simp only [List.foldl_cons]
    rcases List.mem_cons.mp hx with h | h
    · calc x ≤ max a y := h ▸ le_max_right a y
      _ ≤ ys.foldl max (max a y) := le_foldl_max _ _
    · exact ih (max a y) h

lemma le_pyMax (l : List ℚ) (x : ℚ) (hx : x ∈ l) : x ≤ pyMax l := by
  cases l with
  | nil => cases hx
  | cons y ys =>
    show x ≤ ys.foldl max y
    rcases List.mem_cons.mp hx with h | h
    · rw [h]; exact le_foldl_max y ys
    · exact mem_le_foldl_max y x ys h

lemma pyMax_le (l : List ℚ) (c : ℚ) (h0 : l ≠ []) (h : ∀ x ∈ l, x ≤ c) :
    pyMax l ≤ c := by
  cases l with
  | nil => exact absurd rfl h0
  | cons y ys =>
    exact foldl_max_le y c ys (h y (List.mem_cons_self y ys))
      (fun x hx => h x (List.mem_cons_of_mem y hx))

lemma pyMax_mem (l : List ℚ) (h0 : l ≠ []) : pyMax l ∈ l := by
  cases l with
  | nil => exact absurd rfl h0
  | cons y ys =>
    show ys.foldl max y ∈ y :: ys
    rcases foldl_max_mem y ys with h | h
    · rw [h]; exact List.mem_cons_self y ys
    · exact List.mem_cons_of_mem y h

/-! #### Claim C7 -/

lemma blob_value_lb (z : ℕ → ℚ) (i : ℕ) (h : -1 ≤ z i) :
    (160 : ℚ) ≤ baseR + amplitude * z i := by
  have h2 : amplitude * (-1) ≤ amplitude * z i := by
    apply mul_le_mul_of_nonneg_left h
    norm_num [amplitude, baseR, baseRFactor, noiseAmplitudeFactor, maxExtentRadius]
  norm_num [amplitude, baseR, baseRFactor, noiseAmplitudeFactor, maxExtentRadius] at h2 ⊢
  linarith

lemma blob_clamp01 (z : ℕ → ℚ) (i : ℕ) (h : -1 ≤ z i) :
    max (baseR * (1/10)) (baseR + amplitude * z i) = baseR + amplitude * z i := by
  apply max_eq_right
  have h1 := blob_value_lb z i h
  have h2 : baseR * (1/10) ≤ (160 : ℚ) := by
    norm_num [baseR, baseRFactor, maxExtentRadius]
  linarith

lemma blob_clamp02 (z : ℕ → ℚ) (i : ℕ) (h : -1 ≤ z i) :
    max (baseR * (2/10)) (baseR + amplitude * z i) = baseR + amplitude * z i := by
  apply max_eq_right
  have h1 := blob_value_lb z i h
  have h2 : baseR * (2/10) ≤ (160 : ℚ) := by
    norm_num [baseR, baseRFactor, maxExtentRadius]
  linarith

/-- Claim C7: for each of the 360 blob angles the generated radius equals
the noise-perturbed base radius clamped below at `base_radius * 0.2`,
rescaled by `1 / max(generated_factor)` and clamped to the target extent,
and the largest resulting radius equals the target extent.  The noise
oracle is hypothesised to lie in [-1, 1], the range of OpenSimplex
`noise2`; within that range the first-pass clamp at `base_radius * 0.1`
(which the spec does not mention) can never fire, so the code agrees with
the spec formula. -/
theorem ameba_radius_matches_spec (z : ℕ → ℚ) (hz : ∀ i < 360, -1 ≤ z i ∧ z i ≤ 1) :
    (∀ i < 360, amebaRadius z i = amebaRadiusSpec z i) ∧
    pyMax ((List.range 360).map (amebaRadius z)) = maxExtentRadius := by
  have hfeq : (List.range 360).map (genRadiusFactor z)
      = (List.range 360).map (fun j => (baseR + amplitude * z j) / maxExtentRadius) := by
    apply List.map_congr_left
    intro a ha
    rw [genRadiusFactor, blob_clamp01 z a (hz a (List.mem_range.mp ha)).1]
  have hfeq2 : (List.range 360).map
        (fun j => max (baseR * (2/10)) (baseR + amplitude * z j) / maxExtentRadius)
      = (List.range 360).map (fun j => (baseR + amplitude * z j) / maxExtentRadius) := by
    apply List.map_congr_left
    intro a ha
    rw [blob_clamp02 z a (hz a (List.mem_range.mp ha)).1]
  have hne : (List.range 360).map (fun j => (baseR + amplitude * z j) / maxExtentRadius) ≠ [] := by
    simp [List.range_eq_nil]
  have h0mem : (baseR + amplitude * z 0) / maxExtentRadius
      ∈ (List.range 360).map (fun j => (baseR + amplitude * z j) / maxExtentRadius) :=
    List.mem_map.mpr ⟨0, List.mem_range.mpr (by norm_num), rfl⟩
  have hmFlb : (160 : ℚ) / 486
      ≤ pyMax ((List.range 360).map (fun j => (baseR + amplitude * z j) / maxExtentRadius)) := by
    refine le_trans ?_ (le_pyMax _ _ h0mem)
    rw [maxExtentRadius]
    exact (div_le_div_iff_of_pos_right (by norm_num)).mpr (blob_value_lb z 0 (hz 0 (by norm_num)).1)
  have hMG : maxGenRFactor z
      = pyMax ((List.range 360).map (fun j => (baseR + amplitude * z j) / maxExtentRadius)) := by
    simp only [maxGenRFactor, hfeq]
    rw [if_neg (not_le.mpr (lt_of_lt_of_le (by norm_num) hmFlb))]
  have hrad : ∀ i, -1 ≤ z i → amebaRadius z i
      = min ((baseR + amplitude * z i) *
          (1 / pyMax ((List.range 360).map (fun j => (baseR + amplitude * z j) / maxExtentRadius))))
        maxExtentRadius := by
    intro i hi
    rw [amebaRadius, scaleFactor, hMG, blob_clamp02 z i hi]
  constructor
  · intro i hi
    rw [hrad i (hz i hi).1, amebaRadiusSpec, hfeq2, blob_clamp02 z i (hz i hi).1]
  · have hub : ∀ r ∈ (List.range 360).map (amebaRadius z), r ≤ maxExtentRadius := by
      intro r hr
      obtain ⟨j, _, rfl⟩ := List.mem_map.mp hr
      exact min_le_right _ _
    have hex := pyMax_mem _ hne
    obtain ⟨j, hjr, hjv⟩ := List.mem_map.mp hex
    have hvj : (160 : ℚ) ≤ baseR + amplitude * z j :=
      blob_value_lb z j (hz j (List.mem_range.mp hjr)).1
    have hjrad : amebaRadius z j = maxExtentRadius := by
      rw [hrad j (hz j (List.mem_range.mp hjr)).1, ← hjv]
      have hvj0 : baseR + amplitude * z j ≠ 0 := by linarith
      rw [one_div, inv_div, mul_div_cancel₀ maxExtentRadius hvj0, min_self]
    have hRmem : maxExtentRadius ∈ (List.range 360).map (amebaRadius z) :=
      List.mem_map.mpr ⟨j, hjr, hjrad⟩
    have hne2 : (List.range 360).map (amebaRadius z) ≠ [] := by
      simp [List.range_eq_nil]
    exact le_antisymm (pyMax_le _ _ hne2 hub) (le_pyMax _ _ hRmem)

/-- Witness for C7 at the constant-zero noise oracle. -/
theorem ameba_radius_matches_spec_witness :
    (∀ i < 360, -1 ≤ (fun _ : ℕ => (0 : ℚ)) i ∧ (fun _ : ℕ => (0 : ℚ)) i ≤ 1) ∧
    ((∀ i < 360, amebaRadius (fun _ => 0) i = amebaRadiusSpec (fun _ => 0) i) ∧
      pyMax ((List.range 360).map (amebaRadius (fun _ => 0))) = maxExtentRadius) :=
  ⟨fun _ _ => ⟨by norm_num, by norm_num⟩,
    ameba_radius_matches_spec (fun _ => 0) (fun _ _ => ⟨by norm_num, by norm_num⟩)⟩

/-! ### 2D vectors over ℝ (pygame.math.Vector2)

The remaining components use `sqrt` (normalisation) and trigonometry
(polar angles), so they are modelled over ℝ. -/

noncomputable section

structure RVec2 where
  x : ℝ
  y : ℝ

instance : Add RVec2 := ⟨fun a b => ⟨a.x + b.x, a.y + b.y⟩⟩

instance : Sub RVec2 := ⟨fun a b => ⟨a.x - b.x, a.y - b.y⟩⟩

instance : Neg RVec2 := ⟨fun a => ⟨-a.x, -a.y⟩⟩

/-- Scalar multiple `c * v` (pygame `Vector2.__mul__` with a scalar). -/
def RVec2.scale (c : ℝ) (v : RVec2) : RVec2 := ⟨c * v.x, c * v.y⟩

/-- pygame `Vector2.dot`. -/
def RVec2.dot (a b : RVec2) : ℝ := a.x * b.x + a.y * b.y

/-- pygame `Vector2.length_squared`. -/
def RVec2.normSq (v : RVec2) : ℝ := v.dot v

/-- pygame `Vector2.length`. -/
def RVec2.length (v : RVec2) : ℝ := Real.sqrt v.normSq

/-- pygame `Vector2.normalize`: the vector divided by its length.  pygame
raises on a zero vector; every call site in the source guards against
that, so the Lean value at a zero vector (the zero vector, via `1/0 = 0`)
is never relevant. -/
def RVec2.normalize (v : RVec2) : RVec2 := RVec2.scale (1 / v.length) v

/-- pygame `Vector2.reflect v n = v - (2 * (v . n) / (n . n)) * n`
(pygame divides by the squared length of the normal, so `n` need not be
unit; every normal passed in this program is unit anyway). -/
def RVec2.reflect (v n : RVec2) : RVec2 :=
  v - RVec2.scale (2 * v.dot n / n.normSq) n

/-- pygame `Vector2.from_polar((r, phi))` with `phi` in degrees. -/
def fromPolar (r angleDeg : ℝ) : RVec2 :=
  ⟨r * Real.cos (angleDeg * Real.pi / 180), r * Real.sin (angleDeg * Real.pi / 180)⟩

/-- The polar angle of a vector in degrees:
`-v.angle_to(Vector2(1, 0))` as computed in dot.py lines 81-83, i.e.
`degrees(atan2(v.y, v.x))`.  `atan2` is `Complex.arg` on `v.x + v.y * I`. -/
def RVec2.angleDeg (v : RVec2) : ℝ := Complex.arg ⟨v.x, v.y⟩ * 180 / Real.pi

/-! ### Constants from config.py used by the core -/

/-- config.py: `CENTER_X = WIDTH // 2` = 540 (as a real coordinate). -/
def CENTER_X : ℝ := 540

/-- config.py: `CENTER_Y = HEIGHT // 2` = 540. -/
def CENTER_Y : ℝ := 540

/-- config.py: `DOT_RADIUS = 5`. -/
def DOT_RADIUS : ℝ := 5

/-- config.py: `INITIAL_DOT_SPEED = 200`. -/
def INITIAL_DOT_SPEED : ℝ := 200

/-- config.py: `SPLIT_DELAY = 50` (milliseconds). -/
def SPLIT_DELAY : ℤ := 50

/-- config.py: `SPLIT_ANGLE_RANGE = 90` (degrees). -/
def SPLIT_ANGLE_RANGE : ℝ := 90

/-- config.py: `INITIAL_DOT_LIMIT = 10000`. -/
def INITIAL_DOT_LIMIT : ℕ := 10000

/-- config.py: `BOUNDARY_THICKNESS = 5`. -/
def BOUNDARY_THICKNESS : ℝ := 5

/-- config.py: `REGULAR_SPAWN_INTERVAL = 10.0` seconds; simulation.py
line 186 compares elapsed milliseconds against
`REGULAR_SPAWN_INTERVAL * 1000`. -/
def SPAWN_INTERVAL_MS : ℤ := 10000

/-- simulation.py line 128: `epsilon = 1e-6`. -/
def epsilon : ℝ := 1/1000000

/-! ### The Dot class (dot.py)

`color` is omitted: it is presentation-only and never read by the core.
The pygame clock is threaded through as an explicit `now : ℤ`
(milliseconds, `pygame.time.get_ticks`). -/

structure Dot where
  pos : RVec2
  vel : RVec2
  needs_split : Bool
  split_timer_start : ℤ
  last_collision_normal : Option RVec2

/-- dot.py `Dot.__init__`: a fresh dot with the given position and
velocity, not marked for splitting, no stored normal. -/
def Dot.mk' (x y vx vy : ℝ) : Dot :=
  { pos := ⟨x, y⟩, vel := ⟨vx, vy⟩, needs_split := false,
    split_timer_start := 0, last_collision_normal := none }

/-- dot.py `Dot.move`: `pos += vel * dt`. -/
def Dot.move (d : Dot) (dt : ℝ) : Dot :=
  { d with pos := d.pos + RVec2.scale dt d.vel }

/-- dot.py `Dot.mark_for_split`: if the dot is not already marked, mark
it, start the split timer at the current tick count, and store the
normalised inward collision normal (falling back to (0, -1) on a
near-zero vector). -/
def Dot.mark_for_split (d : Dot) (inward_collision_normal : RVec2) (now : ℤ) : Dot :=
  if d.needs_split then d
  else
    { d with
      needs_split := true
      split_timer_start := now
      last_collision_normal :=
        some (if inward_collision_normal.normSq > 1/1000000000
              then inward_collision_normal.normalize
              else ⟨0, -1⟩) }

/-- dot.py `Dot.should_split`: marked and at least `SPLIT_DELAY`
milliseconds elapsed since marking. -/
def Dot.should_split (d : Dot) (now : ℤ) : Bool :=
  d.needs_split && decide (now - d.split_timer_start ≥ SPLIT_DELAY)

/-- dot.py `Dot.split`: returns the mutated parent (unmarked, stored
normal cleared) together with the two children.  The two calls to
`random.uniform(-SPLIT_ANGLE_RANGE / 2, SPLIT_ANGLE_RANGE / 2)` are
modelled by the oracle arguments `r1 r2`.  The `try/except ValueError`
around the angle computation is dead code (`angle_to` does not raise on
the vectors that reach it), so only the `try` body is modelled. -/
def Dot.split (d : Dot) (r1 r2 : ℝ) : Dot × List Dot :=
  let parent_pos := d.pos
  let normal : RVec2 :=
    match d.last_collision_normal with
    | some n => n
    | none =>
        let vec_to_center : RVec2 := (⟨CENTER_X, CENTER_Y⟩ : RVec2) - parent_pos
        if vec_to_center.normSq > 1/1000000000 then vec_to_center.normalize
        else ⟨0, -1⟩
  let stored_normal_angle := normal.angleDeg
  let child : ℝ → Dot := fun r =>
    let split_angle_deg := stored_normal_angle + r
    let current_speed := INITIAL_DOT_SPEED
    let new_vel := fromPolar current_speed split_angle_deg
    let offset_vec :=
      if current_speed > 0 then RVec2.scale (DOT_RADIUS * (11/10)) new_vel.normalize
      else fromPolar (DOT_RADIUS * (11/10)) split_angle_deg
    let new_pos := parent_pos + offset_vec
    Dot.mk' new_pos.x new_pos.y new_vel.x new_vel.y
  ({ d with needs_split := false, last_collision_normal := none },
    [child r1, child r2])

end

/-! ### Boundary geometry and the collision engine (simulation.py) -/

noncomputable section

/-- One polygon edge as stored in `data['segments']` (simulation.py lines
78-82): `(v_start, v_end, segment_vector, segment_len_sq, normal_outward)`. -/
structure Segment where
  v_start : RVec2
  v_end : RVec2
  seg_vec : RVec2
  seg_len_sq : ℝ
  normal_outward : RVec2

/-- The active boundary: simulation.py dispatches on
`current_shape_data['type']`, either `'circle'` (with a radius) or
`'polygon'` (with its segment list). -/
inductive Boundary where
  | circle (radius : ℝ)
  | polygon (segs : List Segment)

/-- simulation.py lines 16-22: `find_closest_point_on_segment`. -/
def find_closest_point_on_segment (point_vec seg_start_vec seg_end_vec : RVec2) : RVec2 :=
  let segment_vec := seg_end_vec - seg_start_vec
  let seg_len_sq := segment_vec.normSq
  if seg_len_sq < 1/1000000000 then seg_start_vec
  else
    let start_to_point_vec := point_vec - seg_start_vec
    let t := max 0 (min 1 (start_to_point_vec.dot segment_vec / seg_len_sq))
    seg_start_vec + RVec2.scale t segment_vec

/-- The running state of the predictive sweep: the currently colliding
segment, the collision point, and `min_collision_dt`.  `none` encodes the
initial state `min_collision_dt = float('inf')`,
`colliding_segment_data = None`. -/
structure SweepHit where
  seg : Segment
  point : RVec2
  t : ℝ

/-- `t < min_collision_dt` where `none` stands for `float('inf')`. -/
def minDtBound (t : ℝ) : Option SweepHit → Prop
  | none => True
  | some h => t < h.t

instance (t : ℝ) : (acc : Option SweepHit) → Decidable (minDtBound t acc)
  | none => Decidable.isTrue trivial
  | some h => inferInstanceAs (Decidable (t < h.t))

/-- One iteration of the predictive sweep loop (simulation.py lines
141-155) over one edge, updating the running best hit. -/
def sweepStep (dpos dvel : RVec2) (manual_offset : ℝ)
    (acc : Option SweepHit) (sd : Segment) : Option SweepHit :=
  let p_closest := find_closest_point_on_segment dpos sd.v_start sd.v_end
  let vec_to_closest := p_closest - dpos
  let moving_towards_segment_point := dvel.dot vec_to_closest > -epsilon
  let moving_towards_wall_line := dvel.dot sd.normal_outward > epsilon
  if ¬ (moving_towards_segment_point ∧ moving_towards_wall_line) then acc
  else
    let start_to_pos := dpos - sd.v_start
    let dist_edge_to_target_line :=
      start_to_pos.dot sd.normal_outward - BOUNDARY_THICKNESS / 2 - manual_offset - DOT_RADIUS
    let vel_dot_normal_positive := dvel.dot sd.normal_outward
    if |vel_dot_normal_positive| < epsilon then acc
    else
      let time_to_hit_line := dist_edge_to_target_line / vel_dot_normal_positive
      if 0 - epsilon ≤ time_to_hit_line ∧ minDtBound time_to_hit_line acc then
        let collision_point_on_line := dpos + RVec2.scale time_to_hit_line dvel
        let proj_on_segment_sq := (collision_point_on_line - sd.v_start).dot sd.seg_vec
        if -epsilon ≤ proj_on_segment_sq ∧ proj_on_segment_sq ≤ sd.seg_len_sq + epsilon then
          some ⟨sd, collision_point_on_line, time_to_hit_line⟩
        else acc
      else acc

/-- The full predictive sweep over the segment list (simulation.py lines
140-155). -/
def predictiveHit (segs : List Segment) (dpos dvel : RVec2) (manual_offset : ℝ) :
    Option SweepHit :=
  segs.foldl (sweepStep dpos dvel manual_offset) none

/-- `overlap > max_overlap` where `none` stands for
`max_overlap = -float('inf')`. -/
def maxOverlapBound (overlap : ℝ) : Option (Segment × ℝ) → Prop
  | none => True
  | some p => overlap > p.2

instance (overlap : ℝ) : (acc : Option (Segment × ℝ)) → Decidable (maxOverlapBound overlap acc)
  | none => Decidable.isTrue trivial
  | some p => inferInstanceAs (Decidable (overlap > p.2))

/-- One iteration of the safety-net scan (simulation.py lines 165-170)
over one edge, keeping the maximally overlapping nearby segment. -/
def safetyNetStep (next_pos : RVec2) (manual_offset : ℝ)
    (acc : Option (Segment × ℝ)) (sd : Segment) : Option (Segment × ℝ) :=
  let p_closest_to_next := find_closest_point_on_segment next_pos sd.v_start sd.v_end
  let dist_sq_to_segment := (next_pos - p_closest_to_next).normSq
  if dist_sq_to_segment > (DOT_RADIUS * 3)^2 then acc
  else
    let overlap :=
      (next_pos - sd.v_start).dot sd.normal_outward - BOUNDARY_THICKNESS / 2 - manual_offset - DOT_RADIUS
    if maxOverlapBound overlap acc then some (sd, overlap) else acc

/-- The safety-net scan over the segment list (simulation.py lines 163-170). -/
def safetyNetPick (segs : List Segment) (next_pos : RVec2) (manual_offset : ℝ) :
    Option (Segment × ℝ) :=
  segs.foldl (safetyNetStep next_pos manual_offset) none

/-- simulation.py lines 139-178: `handle_collisions`, polygon case.
Returns the (possibly mutated) dot and the `collided` flag. -/
def handle_collisions_polygon (segs : List Segment) (manual_offset : ℝ)
    (d : Dot) (dt : ℝ) (now : ℤ) : Dot × Bool :=
  match predictiveHit segs d.pos d.vel manual_offset with
  | some hit =>
      let d1 := { d with pos := hit.point }
      let start_to_final_pos := d1.pos - hit.seg.v_start
      let overlap_at_collision :=
        start_to_final_pos.dot hit.seg.normal_outward - BOUNDARY_THICKNESS / 2 - manual_offset - DOT_RADIUS
      let d2 :=
        if overlap_at_collision > -epsilon then
          { d1 with pos := d1.pos - RVec2.scale (overlap_at_collision + epsilon) hit.seg.normal_outward }
        else d1
      let d3 :=
        if d2.vel.normSq > epsilon then { d2 with vel := d2.vel.reflect hit.seg.normal_outward }
        else d2
      (d3.mark_for_split (-hit.seg.normal_outward) now, true)
  | none =>
      let next_pos := d.pos + RVec2.scale dt d.vel
      match safetyNetPick segs next_pos manual_offset with
      | some pick =>
          if pick.2 > epsilon then
            if d.vel.dot pick.1.normal_outward > epsilon then
              let d1 := { d with pos := next_pos - RVec2.scale (pick.2 + epsilon) pick.1.normal_outward }
              let d2 :=
                if d1.vel.normSq > epsilon then { d1 with vel := d1.vel.reflect pick.1.normal_outward }
                else d1
              (d2.mark_for_split (-pick.1.normal_outward) now, true)
            else (d, false)
          else (d, false)
      | none => (d, false)

/-- simulation.py lines 130-138: `handle_collisions`, circle case. -/
def handle_collisions_circle (radius : ℝ) (manual_offset : ℝ)
    (d : Dot) (dt : ℝ) (now : ℤ) : Dot × Bool :=
  let inner_boundary_edge_radius := radius - BOUNDARY_THICKNESS / 2
  let collision_distance := max 0 (inner_boundary_edge_radius - manual_offset - DOT_RADIUS)
  let next_pos := d.pos + RVec2.scale dt d.vel
  let center : RVec2 := ⟨CENTER_X, CENTER_Y⟩
  let vec_to_center := center - next_pos
  let dist_sq := vec_to_center.normSq
  if dist_sq ≥ collision_distance * collision_distance - epsilon then
    let dist := if dist_sq > 0 then Real.sqrt dist_sq else 0
    let normal_to_center := if dist > epsilon then vec_to_center.normalize else (⟨0, 1⟩ : RVec2)
    let d1 := { d with pos := center - RVec2.scale (collision_distance - epsilon) normal_to_center }
    let reflection_normal := -normal_to_center
    let d2 :=
      if d1.vel.normSq > epsilon then { d1 with vel := d1.vel.reflect reflection_normal }
      else d1
    (d2.mark_for_split normal_to_center now, true)
  else (d, false)

/-- simulation.py `handle_collisions`, dispatching on the shape type. -/
def handle_collisions (b : Boundary) (manual_offset : ℝ)
    (d : Dot) (dt : ℝ) (now : ℤ) : Dot × Bool :=
  match b with
  | .circle radius => handle_collisions_circle radius manual_offset d dt now
  | .polygon segs => handle_collisions_polygon segs manual_offset d dt now

/-- simulation.py lines 192-193: each tick a dot is either
collision-resolved or, when no collision happened, moved by `vel * dt`. -/
def stepDot (b : Boundary) (manual_offset dt : ℝ) (now : ℤ) (d : Dot) : Dot :=
  let step := handle_collisions b manual_offset d dt now
  if step.2 then step.1 else step.1.move dt

end

/-! ### The simulation controller (simulation.py) -/

noncomputable section

/-- The controller state touched by the core logic (simulation.py
`reset`, lines 91-95): the dot list, the dot limit, the pause flag, the
limit-reached flag, the first-unpause flag and the last spawn time. -/
structure SimState where
  dots : List Dot
  dot_limit : ℕ
  paused : Bool
  limit_reached_paused : Bool
  first_unpause : Bool
  last_spawn_time : ℤ

/-- simulation.py lines 123-125: `spawn_dot` appends a dot at the center;
the random direction `random.uniform(0, 2*pi)` (converted to degrees for
`from_polar`) is the oracle argument `angleDeg`. -/
def spawn_dot (angleDeg : ℝ) (s : SimState) : SimState :=
  { s with dots := s.dots ++
      [Dot.mk' CENTER_X CENTER_Y
        (fromPolar INITIAL_DOT_SPEED angleDeg).x (fromPolar INITIAL_DOT_SPEED angleDeg).y] }

/-- simulation.py lines 103-111: the effect of pressing SPACE
(`handle_input`).  `now` is the pygame tick count, `angleDeg` the random
direction used when a first-unpause spawn occurs. -/
def press_space (now : ℤ) (angleDeg : ℝ) (s : SimState) : SimState :=
  if s.paused then
    let s1 :=
      if s.first_unpause then
        { (if s.dot_limit > 0 ∧ s.dots.length = 0 then spawn_dot angleDeg s else s) with
          last_spawn_time := now, first_unpause := false }
      else s
    let s2 :=
      if s1.limit_reached_paused then
        { s1 with dot_limit := s1.dot_limit + INITIAL_DOT_LIMIT, limit_reached_paused := false }
      else s1
    { s2 with paused := false }
  else { s with paused := true }

/-- The accumulator of the per-dot update loop (simulation.py lines
190-201): the processed dots that stay, `dots_to_add`, and the number of
dots queued for removal (each removed dot is a distinct object, so
`dots_to_remove` is determined by its length and by which processed dots
split). -/
structure PassAcc where
  kept : List Dot
  dots_to_add : List Dot
  dots_removed : ℕ

/-- simulation.py lines 191-201: the per-dot loop of `update`.  For each
dot: collide or move; then, if its split deadline has elapsed, either
split it (when `len(dots) + len(dots_to_add) - len(dots_to_remove) <
dot_limit`) or clear its pending-split flag.  `rnd i` supplies the two
`random.uniform` draws consumed by the i-th dot's split. -/
def processDots (b : Boundary) (manual_offset dt : ℝ) (now : ℤ) (rnd : ℕ → ℝ × ℝ)
    (n_dots dot_limit : ℕ) : List Dot → ℕ → PassAcc → PassAcc
  | [], _, acc => acc
  | d :: rest, i, acc =>
      let d2 := stepDot b manual_offset dt now d
      if d2.should_split now then
        if (n_dots : ℤ) + acc.dots_to_add.length - acc.dots_removed < (dot_limit : ℤ) then
          processDots b manual_offset dt now rnd n_dots dot_limit rest (i + 1)
            { acc with
              dots_to_add := acc.dots_to_add ++ (d2.split (rnd i).1 (rnd i).2).2
              dots_removed := acc.dots_removed + 1 }
        else
          processDots b manual_offset dt now rnd n_dots dot_limit rest (i + 1)
            { acc with kept := acc.kept ++ [{ d2 with needs_split := false }] }
      else
        processDots b manual_offset dt now rnd n_dots dot_limit rest (i + 1)
          { acc with kept := acc.kept ++ [d2] }

/-- simulation.py lines 186-188: the interval-spawn step of `update`
(spawn one dot when not waiting for the first unpause, the interval has
elapsed, and the population is below the cap; the spawn timer is reset
whenever the interval check fires). -/
def spawnStage (angleDeg : ℝ) (now : ℤ) (s : SimState) : SimState :=
  if ¬ s.first_unpause ∧ now - s.last_spawn_time ≥ SPAWN_INTERVAL_MS then
    { (if s.dots.length < s.dot_limit then spawn_dot angleDeg s else s) with
      last_spawn_time := now }
  else s

/-- simulation.py lines 190-209: the per-dot pass of `update`, the
atomic application of the queued list changes, and the final limit
check (pause and set the limit-reached flag when the count has reached
the cap and the flag is not yet set). -/
def updateTail (b : Boundary) (manual_offset dt : ℝ) (now : ℤ)
    (rnd : ℕ → ℝ × ℝ) (s1 : SimState) : SimState :=
  let acc := processDots b manual_offset dt now rnd s1.dots.length s1.dot_limit
    s1.dots 0 ⟨[], [], 0⟩
  let s2 := { s1 with dots := acc.kept ++ acc.dots_to_add }
  if s2.dots.length ≥ s2.dot_limit ∧ ¬ s2.limit_reached_paused then
    { s2 with paused := true, limit_reached_paused := true }
  else s2

/-- simulation.py lines 180-209: `update` (with `ui_manager.update`
omitted as presentation-only).  `b` is the active boundary with its
per-shape `manual_offset`; `now` is the pygame tick count; `angleDeg`
and `rnd` are the oracles for the random draws. -/
def Simulation.update (b : Boundary) (manual_offset dt : ℝ) (now : ℤ)
    (angleDeg : ℝ) (rnd : ℕ → ℝ × ℝ) (s : SimState) : SimState :=
  if s.paused then s
  else updateTail b manual_offset dt now rnd (spawnStage angleDeg now s)

end

/-! ### Component lemmas for RVec2 -/

@[simp] lemma RVec2.add_x (a b : RVec2) : (a + b).x = a.x + b.x := rfl

@[simp] lemma RVec2.add_y (a b : RVec2) : (a + b).y = a.y + b.y := rfl

@[simp] lemma RVec2.sub_x (a b : RVec2) : (a - b).x = a.x - b.x := rfl

@[simp] lemma RVec2.sub_y (a b : RVec2) : (a - b).y = a.y - b.y := rfl

@[simp] lemma RVec2.neg_x (a : RVec2) : (-a).x = -a.x := rfl

@[simp] lemma RVec2.neg_y (a : RVec2) : (-a).y = -a.y := rfl

@[simp] lemma RVec2.scale_x (c : ℝ) (v : RVec2) : (RVec2.scale c v).x = c * v.x := rfl

@[simp] lemma RVec2.scale_y (c : ℝ) (v : RVec2) : (RVec2.scale c v).y = c * v.y := rfl

/-! ### Claim C9: reflection preserves speed -/

lemma reflect_normSq (v n : RVec2) (hn : n.normSq = 1) :
    (v.reflect n).normSq = v.normSq := by
  have hn' : n.x * n.x + n.y * n.y = 1 := hn
  simp only [RVec2.reflect, RVec2.normSq, RVec2.dot, RVec2.sub_x, RVec2.sub_y,
    RVec2.scale_x, RVec2.scale_y] at hn' ⊢
  rw [hn', div_one]
  ring_nf
  linear_combination (2 * (v.x * n.x + v.y * n.y))^2 * hn'

/-- Claim C9: for every velocity of non-negligible magnitude (the
`length_squared > epsilon` guard of simulation.py lines 137/160) and
every unit normal, the pygame reflection `v - 2 (v . n) n` preserves the
speed `|v|`. -/
theorem reflection_preserves_speed (v n : RVec2)
    (hn : n.normSq = 1) (_hv : v.normSq > epsilon) :
    (v.reflect n).length = v.length := by
  unfold RVec2.length
  rw [reflect_normSq v n hn]

/-- Witness for C9 at `v = (3, 4)`, `n = (0, 1)`. -/
theorem reflection_preserves_speed_witness :
    (RVec2.normSq ⟨0, 1⟩ = 1) ∧ ((RVec2.normSq ⟨3, 4⟩ : ℝ) > epsilon) ∧
    (RVec2.reflect ⟨3, 4⟩ ⟨0, 1⟩).length = RVec2.length ⟨3, 4⟩ :=
  ⟨by norm_num [RVec2.normSq, RVec2.dot],
    by norm_num [RVec2.normSq, RVec2.dot, epsilon],
    reflection_preserves_speed ⟨3, 4⟩ ⟨0, 1⟩
      (by norm_num [RVec2.normSq, RVec2.dot])
      (by norm_num [RVec2.normSq, RVec2.dot, epsilon])⟩

/-! ### Claim C10: marking an already-marked dot is a no-op -/

/-- Claim C10: `mark_for_split` on a dot whose pending-split flag is
already set leaves the dot unchanged: the split timer start, the stored
collision normal and the flag are all fixed by the first collision
(dot.py line 36: the whole body is guarded by `if not self.needs_split`). -/
theorem mark_for_split_noop (d : Dot) (n : RVec2) (now : ℤ)
    (h : d.needs_split = true) : d.mark_for_split n now = d := by
  simp [Dot.mark_for_split, h]

/-- A concrete already-marked dot for the C10 witness. -/
def dotMarked : Dot :=
  { pos := ⟨1, 2⟩, vel := ⟨3, 4⟩, needs_split := true,
    split_timer_start := 7, last_collision_normal := some ⟨0, -1⟩ }

/-- Witness for C10. -/
theorem mark_for_split_noop_witness :
    dotMarked.needs_split = true ∧ dotMarked.mark_for_split ⟨1, 0⟩ 99 = dotMarked :=
  ⟨rfl, mark_for_split_noop dotMarked ⟨1, 0⟩ 99 rfl⟩

/-! ### Claim C2: the capacity-expansion policy on unpause -/

/-- A reachable-shaped state with the cap-reached flag set after a second
cap-reach event: the limit has already been expanded once
(`dot_limit = 2 * INITIAL_DOT_LIMIT`). -/
def capReachedState : SimState :=
  { dots := [], dot_limit := 20000, paused := true, limit_reached_paused := true,
    first_unpause := false, last_spawn_time := 0 }

/-- Counterexample to C2 as stated: unpausing with the flag set adds
`INITIAL_DOT_LIMIT` (simulation.py line 109), it does not double the
cap; from `dot_limit = 20000` it yields 30000, not 40000. -/
theorem press_space_not_double :
    (press_space 0 0 capReachedState).dot_limit = 30000 ∧
    (press_space 0 0 capReachedState).dot_limit ≠ 2 * capReachedState.dot_limit := by
  constructor
  · simp [press_space, capReachedState, INITIAL_DOT_LIMIT]
  · simp [press_space, capReachedState, INITIAL_DOT_LIMIT]

/-- Claim C2 amended: for every state with the cap-reached flag set,
unpausing adds `INITIAL_DOT_LIMIT` to the population cap (this equals
doubling only on the first cap-reach event, when the cap still equals
`INITIAL_DOT_LIMIT`) and clears the flag; the pause flag is cleared too. -/
theorem press_space_expands_cap (now : ℤ) (a : ℝ) (s : SimState)
    (hp : s.paused = true) (hf : s.limit_reached_paused = true) :
    (press_space now a s).dot_limit = s.dot_limit + INITIAL_DOT_LIMIT ∧
    (press_space now a s).limit_reached_paused = false ∧
    (press_space now a s).paused = false := by
  unfold press_space
  rw [hp]
  by_cases h1 : s.first_unpause <;>
    simp [h1, hf, spawn_dot, apply_ite SimState.dot_limit,
      apply_ite SimState.limit_reached_paused]

/-- Witness for C2 (amended): a state paused at the first cap-reach
event with `dot_limit = INITIAL_DOT_LIMIT`. -/
def firstCapState : SimState :=
  { dots := [], dot_limit := INITIAL_DOT_LIMIT, paused := true,
    limit_reached_paused := true, first_unpause := false, last_spawn_time := 0 }

/-- Witness for C2. -/
theorem press_space_expands_cap_witness :
    firstCapState.paused = true ∧ firstCapState.limit_reached_paused = true ∧
    ((press_space 5 0 firstCapState).dot_limit
        = firstCapState.dot_limit + INITIAL_DOT_LIMIT ∧
      (press_space 5 0 firstCapState).limit_reached_paused = false ∧
      (press_space 5 0 firstCapState).paused = false) :=
  ⟨rfl, rfl, press_space_expands_cap 5 0 firstCapState rfl rfl⟩

/-! ### Claim C8: collide or move, never both -/

lemma mark_for_split_sets_flag (d : Dot) (n : RVec2) (now : ℤ) :
    (d.mark_for_split n now).needs_split = true := by
  unfold Dot.mark_for_split
  split
  · assumption
  · rfl

lemma handle_collisions_circle_cases (radius mo dt : ℝ) (now : ℤ) (d : Dot) :
    ((handle_collisions_circle radius mo d dt now).2 = true ∧
      (handle_collisions_circle radius mo d dt now).1.needs_split = true) ∨
    handle_collisions_circle radius mo d dt now = (d, false) := by
  simp only [handle_collisions_circle]
  split
  · exact Or.inl ⟨rfl, mark_for_split_sets_flag _ _ _⟩
  · exact Or.inr rfl

lemma handle_collisions_polygon_cases (segs : List Segment) (mo dt : ℝ) (now : ℤ) (d : Dot) :
    ((handle_collisions_polygon segs mo d dt now).2 = true ∧
      (handle_collisions_polygon segs mo d dt now).1.needs_split = true) ∨
    handle_collisions_polygon segs mo d dt now = (d, false) := by
  simp only [handle_collisions_polygon]
  split
  · exact Or.inl ⟨rfl, mark_for_split_sets_flag _ _ _⟩
  · split
    · split
      · split
        · exact Or.inl ⟨rfl, mark_for_split_sets_flag _ _ _⟩
        · exact Or.inr rfl
      · exact Or.inr rfl
    · exact Or.inr rfl

lemma handle_collisions_cases (b : Boundary) (mo dt : ℝ) (now : ℤ) (d : Dot) :
    ((handle_collisions b mo d dt now).2 = true ∧
      (handle_collisions b mo d dt now).1.needs_split = true) ∨
    handle_collisions b mo d dt now = (d, false) := by
  cases b with
  | circle radius => exact handle_collisions_circle_cases radius mo dt now d
  | polygon segs => exact handle_collisions_polygon_cases segs mo dt now d

/-- Claim C8: each tick, each particle is handled in exactly one of two
ways.  If the collision engine reports no collision it has left the
particle entirely unchanged and the controller moves it by `vel * dt`
(simulation.py line 193); if it reports a collision, the controller uses
the engine's resolved particle (repositioned, reflected when its speed
is non-negligible, and marked for split) and does not move it. -/
theorem collide_or_move (b : Boundary) (mo dt : ℝ) (now : ℤ) (d : Dot) :
    ((handle_collisions b mo d dt now).2 = false →
      (handle_collisions b mo d dt now).1 = d ∧
      stepDot b mo dt now d = d.move dt) ∧
    ((handle_collisions b mo d dt now).2 = true →
      stepDot b mo dt now d = (handle_collisions b mo d dt now).1 ∧
      (handle_collisions b mo d dt now).1.needs_split = true) := by
  have hstep : stepDot b mo dt now d =
      (if (handle_collisions b mo d dt now).2 = true
        then (handle_collisions b mo d dt now).1
        else (handle_collisions b mo d dt now).1.move dt) := rfl
  constructor
  · intro h
    rcases handle_collisions_cases b mo dt now d with ⟨h2, _⟩ | hr
    · rw [h] at h2; cases h2
    · rw [hstep, hr]
      exact ⟨rfl, by simp⟩
  · intro h
    rcases handle_collisions_cases b mo dt now d with ⟨_, hm⟩ | hr
    · rw [hstep, h]
      exact ⟨by simp, hm⟩
    · rw [hr] at h; cases h

/-- A concrete free-flight dot for the C8 witness. -/
def dotFree : Dot := Dot.mk' 1 2 3 4

/-- Witness for C8: on an empty polygon boundary no collision is found
and the dot is simply moved. -/
theorem collide_or_move_witness :
    (handle_collisions (Boundary.polygon []) 0 dotFree 1 0).2 = false ∧
    ((handle_collisions (Boundary.polygon []) 0 dotFree 1 0).1 = dotFree ∧
      stepDot (Boundary.polygon []) 0 1 0 dotFree = dotFree.move 1) :=
  ⟨rfl, (collide_or_move (Boundary.polygon []) 0 1 0 dotFree).1 rfl⟩

/-! ### Claim C1: the predictive sweep selects the earliest qualifying edge -/

/-- The conditions under which the predictive sweep (simulation.py lines
141-155) accepts the edge `sd` at time `t`: the dot is moving towards
the closest point of the segment and towards the wall line, the velocity
component along the outward normal is non-negligible, `t` is the
computed `time_to_hit_line`, `t ≥ -epsilon`, and the intersection point
projects onto the finite segment (within epsilon). -/
def SweepQualifies (dpos dvel : RVec2) (mo : ℝ) (sd : Segment) (t : ℝ) : Prop :=
  dvel.dot (find_closest_point_on_segment dpos sd.v_start sd.v_end - dpos) > -epsilon ∧
  dvel.dot sd.normal_outward > epsilon ∧
  ¬ (|dvel.dot sd.normal_outward| < epsilon) ∧
  t = ((dpos - sd.v_start).dot sd.normal_outward - BOUNDARY_THICKNESS / 2 - mo - DOT_RADIUS)
        / dvel.dot sd.normal_outward ∧
  0 - epsilon ≤ t ∧
  -epsilon ≤ (dpos + RVec2.scale t dvel - sd.v_start).dot sd.seg_vec ∧
  (dpos + RVec2.scale t dvel - sd.v_start).dot sd.seg_vec ≤ sd.seg_len_sq + epsilon

/-- Loop invariant of the predictive sweep over the already-processed
edges: `none` means no processed edge qualifies; `some hit` records a
qualifying processed edge whose time is minimal among all qualifying
processed edges, together with its collision point. -/
def SweepInv (dpos dvel : RVec2) (mo : ℝ) (processed : List Segment) :
    Option SweepHit → Prop
  | none => ∀ sd ∈ processed, ∀ t, ¬ SweepQualifies dpos dvel mo sd t
  | some hit =>
      SweepQualifies dpos dvel mo hit.seg hit.t ∧
      hit.seg ∈ processed ∧
      hit.point = dpos + RVec2.scale hit.t dvel ∧
      ∀ sd ∈ processed, ∀ t, SweepQualifies dpos dvel mo sd t → hit.t ≤ t

lemma SweepInv_extend_nonqual (dpos dvel : RVec2) (mo : ℝ) (processed : List Segment)
    (acc : Option SweepHit) (sd : Segment)
    (h : SweepInv dpos dvel mo processed acc)
    (hnq : ∀ t, ¬ SweepQualifies dpos dvel mo sd t) :
    SweepInv dpos dvel mo (processed ++ [sd]) acc := by
  cases acc with
  | none =>
    intro sd' hsd' t
    rcases List.mem_append.mp hsd' with h1 | h1
    · exact h sd' h1 t
    · rw [List.mem_singleton.mp h1]
      exact hnq t
  | some hit =>
    obtain ⟨hq, hmem, hpt, hmin⟩ := h
    refine ⟨hq, List.mem_append_left _ hmem, hpt, ?_⟩
    intro sd' hsd' t hq'
    rcases List.mem_append.mp hsd' with h1 | h1
    · exact hmin sd' h1 t hq'
    · rw [List.mem_singleton.mp h1] at hq'
      exact absurd hq' (hnq t)

lemma sweepStep_inv (dpos dvel : RVec2) (mo : ℝ) (processed : List Segment)
    (acc : Option SweepHit) (sd : Segment)
    (h : SweepInv dpos dvel mo processed acc) :
    SweepInv dpos dvel mo (processed ++ [sd]) (sweepStep dpos dvel mo acc sd) := by
  simp only [sweepStep]
  split
  · next hAB =>
      refine SweepInv_extend_nonqual dpos dvel mo processed acc sd h ?_
      intro t hq
      exact hAB ⟨hq.1, hq.2.1⟩
  · next hAB =>
      split
      · next hC =>
          refine SweepInv_extend_nonqual dpos dvel mo processed acc sd h ?_
          intro t hq
          exact hq.2.2.1 hC
      · next hC =>
          split
          · next hTM =>
              split
              · next hP =>
                  have hab := not_not.mp hAB
                  refine ⟨⟨hab.1, hab.2, hC, rfl, hTM.1, hP.1, hP.2⟩,
                    List.mem_append_right _ (List.mem_singleton_self sd), rfl, ?_⟩
                  intro sd' hsd' t hq'
                  rcases List.mem_append.mp hsd' with h1 | h1
                  · cases acc with
                    | none => exact absurd hq' (h sd' h1 t)
                    | some hit =>
                        obtain ⟨_, _, _, hmin⟩ := h
                        have h2 : hit.t ≤ t := hmin sd' h1 t hq'
                        have h3 : _ < hit.t := hTM.2
                        exact le_of_lt (lt_of_lt_of_le h3 h2)
                  · rw [List.mem_singleton.mp h1] at hq'
                    exact le_of_eq hq'.2.2.2.1.symm
              · next hP =>
                  refine SweepInv_extend_nonqual dpos dvel mo processed acc sd h ?_
                  intro t hq
                  apply hP
                  have ht := hq.2.2.2.1
                  exact ⟨ht ▸ hq.2.2.2.2.2.1, ht ▸ hq.2.2.2.2.2.2⟩
          · next hTM =>
              rcases not_and_or.mp hTM with hT | hM
              · refine SweepInv_extend_nonqual dpos dvel mo processed acc sd h ?_
                intro t hq
                exact hT (hq.2.2.2.1 ▸ hq.2.2.2.2.1)
              · cases acc with
                | none => exact absurd trivial hM
                | some hit =>
                    obtain ⟨hq0, hmem, hpt, hmin⟩ := h
                    refine ⟨hq0, List.mem_append_left _ hmem, hpt, ?_⟩
                    intro sd' hsd' t hq'
                    rcases List.mem_append.mp hsd' with h1 | h1
                    · exact hmin sd' h1 t hq'
                    · rw [List.mem_singleton.mp h1] at hq'
                      rw [hq'.2.2.2.1]
                      have hM' : ¬ (_ < hit.t) := hM
                      exact not_lt.mp hM'

lemma foldl_sweepStep_inv (dpos dvel : RVec2) (mo : ℝ) :
    ∀ (segs processed : List Segment) (acc : Option SweepHit),
      SweepInv dpos dvel mo processed acc →
      SweepInv dpos dvel mo (processed ++ segs) (segs.foldl (sweepStep dpos dvel mo) acc)
  | [], processed, acc, h => by simpa using h
  | sd :: rest, processed, acc, h => by
      have h1 := sweepStep_inv dpos dvel mo processed acc sd h
      have h2 := foldl_sweepStep_inv dpos dvel mo rest (processed ++ [sd]) _ h1
      simpa [List.append_assoc] using h2

lemma predictiveHit_inv (segs : List Segment) (dpos dvel : RVec2) (mo : ℝ) :
    SweepInv dpos dvel mo segs (predictiveHit segs dpos dvel mo) := by
  have h0 : SweepInv dpos dvel mo [] none := by
    intro sd hsd t
    cases hsd
  have h := foldl_sweepStep_inv dpos dvel mo segs [] none h0
  simpa using h

/-- Claim C1 amended: when the predictive sweep selects an edge, that
edge qualifies (direction checks, non-negligible normal velocity,
`time_to_hit ≥ -epsilon`, intersection point projecting onto the finite
segment) and its `time_to_hit` is minimal among all qualifying edges —
but the sweep places NO upper bound `dt` on `time_to_hit`
(`min_collision_dt` is initialised to infinity, not to `dt`;
simulation.py line 140), so edges with `time_to_hit > dt` can be and
are selected. -/
theorem predictive_sweep_minimal (segs : List Segment) (dpos dvel : RVec2) (mo : ℝ)
    (hit : SweepHit) (h : predictiveHit segs dpos dvel mo = some hit) :
    SweepQualifies dpos dvel mo hit.seg hit.t ∧
    hit.seg ∈ segs ∧
    hit.point = dpos + RVec2.scale hit.t dvel ∧
    0 - epsilon ≤ hit.t ∧
    ∀ sd ∈ segs, ∀ t, SweepQualifies dpos dvel mo sd t → hit.t ≤ t := by
  have hinv := predictiveHit_inv segs dpos dvel mo
  rw [h] at hinv
  obtain ⟨hq, hmem, hpt, hmin⟩ := hinv
  exact ⟨hq, hmem, hpt, hq.2.2.2.2.1, hmin⟩

@[simp] lemma RVec2.mk_add_mk (a b c d : ℝ) :
    ((⟨a, b⟩ : RVec2) + ⟨c, d⟩) = ⟨a + c, b + d⟩ := rfl

@[simp] lemma RVec2.mk_sub_mk (a b c d : ℝ) :
    ((⟨a, b⟩ : RVec2) - ⟨c, d⟩) = ⟨a - c, b - d⟩ := rfl

@[simp] lemma RVec2.neg_mk (a b : ℝ) : (-(⟨a, b⟩ : RVec2)) = ⟨-a, -b⟩ := rfl

/-- The edge used to refute the `time_to_hit ≤ dt` part of C1: the
segment from (0,0) to (10,0) with outward unit normal (0,-1)
(its collision line, offset by thickness/2 + dot radius, is `y = -7.5`). -/
noncomputable def cexSeg : Segment :=
  { v_start := ⟨0, 0⟩, v_end := ⟨10, 0⟩, seg_vec := ⟨10, 0⟩,
    seg_len_sq := 100, normal_outward := ⟨0, -1⟩ }

/-- A dot already past that collision line (depth 1/2), drifting mostly
sideways: the computed `time_to_hit` is `(1/2) / (1/10) = 5`. -/
noncomputable def cexDot : Dot := Dot.mk' (-100) (-8) 21 (-1/10)

/-- The hit the sweep produces on `cexSeg` for `cexDot`. -/
noncomputable def cexHit : SweepHit := ⟨cexSeg, ⟨5, -17/2⟩, 5⟩

lemma cexSweep : predictiveHit [cexSeg] cexDot.pos cexDot.vel 0 = some cexHit := by
  unfold predictiveHit
  simp only [List.foldl_cons, List.foldl_nil]
  unfold sweepStep find_closest_point_on_segment
  norm_num [cexSeg, cexDot, cexHit, Dot.mk', RVec2.dot, RVec2.scale, RVec2.normSq, epsilon,
    minDtBound, BOUNDARY_THICKNESS, DOT_RADIUS, min_def, max_def, abs_of_pos]

/-- Counterexample to C1 as stated: on the boundary `[cexSeg]` with
offset 0 and `dt = 1/100 > 0`, the predictive sweep selects the edge at
`time_to_hit = 5`, which exceeds `dt`, and `handle_collisions` registers
the collision — the sweep never compares `time_to_hit` against `dt`. -/
theorem predictive_sweep_ignores_dt :
    predictiveHit [cexSeg] cexDot.pos cexDot.vel 0 = some cexHit ∧
    cexHit.t = 5 ∧ ¬ (cexHit.t ≤ 1/100) ∧ (0 : ℝ) < 1/100 ∧
    (handle_collisions_polygon [cexSeg] 0 cexDot (1/100) 0).2 = true := by
  refine ⟨cexSweep, rfl, by norm_num [cexHit], by norm_num, ?_⟩
  unfold handle_collisions_polygon
  rw [cexSweep]

/-- Witness for C1 (amended) at the same concrete input. -/
theorem predictive_sweep_minimal_witness :
    predictiveHit [cexSeg] cexDot.pos cexDot.vel 0 = some cexHit ∧
    (SweepQualifies cexDot.pos cexDot.vel 0 cexHit.seg cexHit.t ∧
      cexHit.seg ∈ [cexSeg] ∧
      cexHit.point = cexDot.pos + RVec2.scale cexHit.t cexDot.vel ∧
      0 - epsilon ≤ cexHit.t ∧
      ∀ sd ∈ [cexSeg], ∀ t, SweepQualifies cexDot.pos cexDot.vel 0 sd t → cexHit.t ≤ t) :=
  ⟨cexSweep, predictive_sweep_minimal [cexSeg] cexDot.pos cexDot.vel 0 cexHit cexSweep⟩

/-! ### Claims C5 and C6: split geometry -/

@[simp] lemma RVec2.eta (v : RVec2) : (⟨v.x, v.y⟩ : RVec2) = v := rfl

lemma fromPolar_normSq (r a : ℝ) : (fromPolar r a).normSq = r^2 := by
  simp only [fromPolar, RVec2.normSq, RVec2.dot]
  have h := Real.sin_sq_add_cos_sq (a * Real.pi / 180)
  nlinarith [h]

lemma fromPolar_length (r a : ℝ) (hr : 0 ≤ r) : (fromPolar r a).length = r := by
  rw [RVec2.length, fromPolar_normSq, Real.sqrt_sq hr]

lemma fromPolar_normalize (r a : ℝ) (hr : 0 < r) :
    (fromPolar r a).normalize = fromPolar 1 a := by
  rw [RVec2.normalize, fromPolar_length r a hr.le]
  simp only [fromPolar, RVec2.scale, RVec2.mk.injEq]
  constructor
  · field_simp
  · field_simp

lemma split_children (d : Dot) (r1 r2 : ℝ) (nv : RVec2)
    (hn : d.last_collision_normal = some nv) :
    (d.split r1 r2).2 =
      [Dot.mk' (d.pos + RVec2.scale (DOT_RADIUS * (11/10))
            (fromPolar 1 (nv.angleDeg + r1))).x
          (d.pos + RVec2.scale (DOT_RADIUS * (11/10))
            (fromPolar 1 (nv.angleDeg + r1))).y
          (fromPolar INITIAL_DOT_SPEED (nv.angleDeg + r1)).x
          (fromPolar INITIAL_DOT_SPEED (nv.angleDeg + r1)).y,
        Dot.mk' (d.pos + RVec2.scale (DOT_RADIUS * (11/10))
            (fromPolar 1 (nv.angleDeg + r2))).x
          (d.pos + RVec2.scale (DOT_RADIUS * (11/10))
            (fromPolar 1 (nv.angleDeg + r2))).y
          (fromPolar INITIAL_DOT_SPEED (nv.angleDeg + r2)).x
          (fromPolar INITIAL_DOT_SPEED (nv.angleDeg + r2)).y] := by
  have hs : (0 : ℝ) < INITIAL_DOT_SPEED := by norm_num [INITIAL_DOT_SPEED]
  simp only [Dot.split, hn, gt_iff_lt, hs, if_true,
    fromPolar_normalize INITIAL_DOT_SPEED _ hs]

lemma split_speeds_sum (d : Dot) (r1 r2 : ℝ) :
    ((d.split r1 r2).2.map (fun c => c.vel.length)).sum = 2 * INITIAL_DOT_SPEED := by
  have hs : (0 : ℝ) ≤ INITIAL_DOT_SPEED := by norm_num [INITIAL_DOT_SPEED]
  simp only [Dot.split, Dot.mk', List.map_cons, List.map_nil, List.sum_cons, List.sum_nil,
    RVec2.eta, fromPolar_length _ _ hs]
  ring

/-- Claim C5 amended: a split produces exactly two children and each of
them is given the configured initial speed (not a share of it, and not
the parent's speed), so the combined (summed) speed of the two children
is `2 * INITIAL_DOT_SPEED` — twice the configured initial speed, not
equal to it. -/
theorem split_combined_speed (d : Dot) (r1 r2 : ℝ) :
    ((d.split r1 r2).2.map (fun c => c.vel.length)).sum = 2 * INITIAL_DOT_SPEED ∧
    (d.split r1 r2).2.length = 2 := by
  refine ⟨split_speeds_sum d r1 r2, ?_⟩
  simp only [Dot.split]
  rfl

/-- A parent dot with stored unit normal (1, 0) for the concrete split
runs of C5/C6. -/
noncomputable def dotWithNormal : Dot :=
  { pos := ⟨0, 0⟩, vel := ⟨7, 0⟩, needs_split := true, split_timer_start := 0,
    last_collision_normal := some ⟨1, 0⟩ }

/-- Counterexample to C5 as stated: at a concrete split, the combined
speed of the two children is `2 * INITIAL_DOT_SPEED = 400`, which is not
the configured initial speed 200. -/
theorem split_combined_speed_not_initial :
    ((dotWithNormal.split 0 0).2.map (fun c => c.vel.length)).sum ≠ INITIAL_DOT_SPEED := by
  rw [split_speeds_sum]
  norm_num [INITIAL_DOT_SPEED]

/-- Claim C6: for every particle with a stored inward normal, split
produces exactly two children; each child's velocity has magnitude
`INITIAL_DOT_SPEED` and direction `normal angle + r` with `|r|` at most
half the configured split-angle range (the oracles `r1, r2` model
`random.uniform(-SPLIT_ANGLE_RANGE/2, SPLIT_ANGLE_RANGE/2)`), and each
child starts at the parent's position plus the unit vector of its
velocity scaled by `DOT_RADIUS * 1.1`. -/
theorem split_geometry (d : Dot) (nv : RVec2) (r1 r2 : ℝ)
    (hn : d.last_collision_normal = some nv)
    (h1 : |r1| ≤ SPLIT_ANGLE_RANGE / 2) (h2 : |r2| ≤ SPLIT_ANGLE_RANGE / 2) :
    (d.split r1 r2).2.length = 2 ∧
    ∀ c ∈ (d.split r1 r2).2, ∃ a : ℝ,
      |a - nv.angleDeg| ≤ SPLIT_ANGLE_RANGE / 2 ∧
      c.vel = fromPolar INITIAL_DOT_SPEED a ∧
      c.vel.length = INITIAL_DOT_SPEED ∧
      c.pos = d.pos + RVec2.scale (DOT_RADIUS * (11/10)) c.vel.normalize := by
  have hs0 : (0 : ℝ) < INITIAL_DOT_SPEED := by norm_num [INITIAL_DOT_SPEED]
  rw [split_children d r1 r2 nv hn]
  refine ⟨rfl, ?_⟩
  intro c hc
  rcases List.mem_cons.mp hc with hc1 | hc1
  · refine ⟨nv.angleDeg + r1, ?_, ?_, ?_, ?_⟩
    · simpa [add_sub_cancel_left] using h1
    · rw [hc1]; simp [Dot.mk']
    · rw [hc1]; simp [Dot.mk', fromPolar_length _ _ hs0.le]
    · rw [hc1]; simp only [Dot.mk', RVec2.eta, fromPolar_normalize _ _ hs0]
  · rcases List.mem_singleton.mp hc1 with rfl
    refine ⟨nv.angleDeg + r2, ?_, ?_, ?_, ?_⟩
    · simpa [add_sub_cancel_left] using h2
    · simp [Dot.mk']
    · simp [Dot.mk', fromPolar_length _ _ hs0.le]
    · simp only [Dot.mk', RVec2.eta, fromPolar_normalize _ _ hs0]

/-- Witness for C6 at a concrete parent and zero angle draws. -/
theorem split_geometry_witness :
    dotWithNormal.last_collision_normal = some ⟨1, 0⟩ ∧
    |(0 : ℝ)| ≤ SPLIT_ANGLE_RANGE / 2 ∧
    ((dotWithNormal.split 0 0).2.length = 2 ∧
      ∀ c ∈ (dotWithNormal.split 0 0).2, ∃ a : ℝ,
        |a - RVec2.angleDeg ⟨1, 0⟩| ≤ SPLIT_ANGLE_RANGE / 2 ∧
        c.vel = fromPolar INITIAL_DOT_SPEED a ∧
        c.vel.length = INITIAL_DOT_SPEED ∧
        c.pos = dotWithNormal.pos + RVec2.scale (DOT_RADIUS * (11/10)) c.vel.normalize) :=
  ⟨rfl, by norm_num [SPLIT_ANGLE_RANGE],
    split_geometry dotWithNormal ⟨1, 0⟩ 0 0 rfl
      (by norm_num [SPLIT_ANGLE_RANGE]) (by norm_num [SPLIT_ANGLE_RANGE])⟩

/-! ### Claim C4: population cap and auto-pause -/

lemma split_length (d : Dot) (r1 r2 : ℝ) : (d.split r1 r2).2.length = 2 := rfl

lemma processDots_kept_removed (b : Boundary) (mo dt : ℝ) (now : ℤ) (rnd : ℕ → ℝ × ℝ)
    (N L : ℕ) (dots : List Dot) :
    ∀ (i : ℕ) (acc : PassAcc),
      (processDots b mo dt now rnd N L dots i acc).kept.length
          + (processDots b mo dt now rnd N L dots i acc).dots_removed
        = acc.kept.length + acc.dots_removed + dots.length := by
  induction dots with
  | nil => intro i acc; simp [processDots]
  | cons d rest ih =>
      intro i acc
      simp only [processDots]
      split
      · split
        · rw [ih]
          simp only [List.length_cons]
          omega
        · rw [ih]
          simp only [List.length_append, List.length_cons, List.length_nil]
          omega
      · rw [ih]
        simp only [List.length_append, List.length_cons, List.length_nil]
        omega

lemma processDots_cap (b : Boundary) (mo dt : ℝ) (now : ℤ) (rnd : ℕ → ℝ × ℝ)
    (N L : ℕ) (dots : List Dot) :
    ∀ (i : ℕ) (acc : PassAcc),
      (N : ℤ) + acc.dots_to_add.length - acc.dots_removed ≤ (L : ℤ) →
      (N : ℤ) + (processDots b mo dt now rnd N L dots i acc).dots_to_add.length
          - (processDots b mo dt now rnd N L dots i acc).dots_removed ≤ (L : ℤ) := by
  induction dots with
  | nil => intro i acc h; simpa [processDots] using h
  | cons d rest ih =>
      intro i acc h
      simp only [processDots]
      split
      · split
        · next hguard =>
            apply ih
            simp only [List.length_append, split_length]
            push_cast at hguard h ⊢
            omega
        · exact ih _ _ h
      · exact ih _ _ h

lemma processDots_final_count (b : Boundary) (mo dt : ℝ) (now : ℤ) (rnd : ℕ → ℝ × ℝ)
    (L : ℕ) (dots : List Dot) (h : dots.length ≤ L) :
    (processDots b mo dt now rnd dots.length L dots 0 ⟨[], [], 0⟩).kept.length +
      (processDots b mo dt now rnd dots.length L dots 0 ⟨[], [], 0⟩).dots_to_add.length ≤ L := by
  have h1 := processDots_kept_removed b mo dt now rnd dots.length L dots 0 ⟨[], [], 0⟩
  have h2 := processDots_cap b mo dt now rnd dots.length L dots 0 ⟨[], [], 0⟩
    (by simp; omega)
  simp only [List.length_nil] at h1
  omega

lemma updateTail_dots (b : Boundary) (mo dt : ℝ) (now : ℤ) (rnd : ℕ → ℝ × ℝ)
    (s1 : SimState) :
    (updateTail b mo dt now rnd s1).dots =
      (processDots b mo dt now rnd s1.dots.length s1.dot_limit s1.dots 0 ⟨[], [], 0⟩).kept ++
      (processDots b mo dt now rnd s1.dots.length s1.dot_limit s1.dots 0 ⟨[], [], 0⟩).dots_to_add := by
  simp only [updateTail]
  split <;> rfl

lemma updateTail_dot_limit (b : Boundary) (mo dt : ℝ) (now : ℤ) (rnd : ℕ → ℝ × ℝ)
    (s1 : SimState) :
    (updateTail b mo dt now rnd s1).dot_limit = s1.dot_limit := by
  simp only [updateTail]
  split <;> rfl

lemma updateTail_first_unpause (b : Boundary) (mo dt : ℝ) (now : ℤ) (rnd : ℕ → ℝ × ℝ)
    (s1 : SimState) :
    (updateTail b mo dt now rnd s1).first_unpause = s1.first_unpause := by
  simp only [updateTail]
  split <;> rfl

lemma updateTail_flags (b : Boundary) (mo dt : ℝ) (now : ℤ) (rnd : ℕ → ℝ × ℝ)
    (s1 : SimState) :
    ((updateTail b mo dt now rnd s1).paused = true ↔
      (s1.paused = true ∨
        (s1.limit_reached_paused = false ∧
          s1.dot_limit ≤ (updateTail b mo dt now rnd s1).dots.length))) ∧
    ((updateTail b mo dt now rnd s1).limit_reached_paused = true ↔
      (s1.limit_reached_paused = true ∨
        s1.dot_limit ≤ (updateTail b mo dt now rnd s1).dots.length)) := by
  rw [updateTail_dots]
  simp only [updateTail]
  split
  · next hcond =>
      obtain ⟨h1, h2⟩ := hcond
      rw [Bool.not_eq_true] at h2
      exact ⟨⟨fun _ => Or.inr ⟨h2, h1⟩, fun _ => rfl⟩,
        ⟨fun _ => Or.inr h1, fun _ => rfl⟩⟩
  · next hcond =>
      rw [not_and_or] at hcond
      refine ⟨⟨fun hp => Or.inl hp, fun h => ?_⟩, ⟨fun hp => Or.inl hp, fun h => ?_⟩⟩
      · rcases h with hp | ⟨hf, hge⟩
        · exact hp
        · rcases hcond with hlt | hflag
          · exact absurd hge hlt
          · rw [not_not] at hflag
            have hflag2 : s1.limit_reached_paused = true := hflag
            rw [hf] at hflag2
            cases hflag2
      · rcases h with hp | hge
        · exact hp
        · rcases hcond with hlt | hflag
          · exact absurd hge hlt
          · rw [not_not] at hflag
            exact hflag

lemma spawnStage_facts (ang : ℝ) (now : ℤ) (s : SimState) :
    (spawnStage ang now s).dot_limit = s.dot_limit ∧
    (spawnStage ang now s).paused = s.paused ∧
    (spawnStage ang now s).limit_reached_paused = s.limit_reached_paused ∧
    (s.dots.length ≤ s.dot_limit → (spawnStage ang now s).dots.length ≤ s.dot_limit) := by
  unfold spawnStage
  split
  · split
    · next h =>
        refine ⟨rfl, rfl, rfl, fun _ => ?_⟩
        simp only [spawn_dot, List.length_append, List.length_cons, List.length_nil]
        omega
    · exact ⟨rfl, rfl, rfl, fun h2 => h2⟩
  · exact ⟨rfl, rfl, rfl, fun h2 => h2⟩

/-- Claim C4: starting from an unpaused state whose particle count is
within the cap, one update pass keeps the count within the cap (so in
particular it never exceeds the cap by more than 1 as claimed): the
spawn step requires `count < cap` and each split requires
`count + queued additions - queued removals < cap`.  The pass pauses
exactly when the resulting count has reached the cap and the
cap-reached flag was not already set, and it sets the flag at the same
moment — one pause per cap-reach event; the cap itself is unchanged. -/
theorem update_respects_cap (b : Boundary) (mo dt : ℝ) (now : ℤ) (ang : ℝ)
    (rnd : ℕ → ℝ × ℝ) (s : SimState)
    (hp : s.paused = false) (hc : s.dots.length ≤ s.dot_limit) :
    (Simulation.update b mo dt now ang rnd s).dots.length ≤ s.dot_limit ∧
    (Simulation.update b mo dt now ang rnd s).dot_limit = s.dot_limit ∧
    ((Simulation.update b mo dt now ang rnd s).paused = true ↔
      (s.limit_reached_paused = false ∧
        s.dot_limit ≤ (Simulation.update b mo dt now ang rnd s).dots.length)) ∧
    ((Simulation.update b mo dt now ang rnd s).limit_reached_paused = true ↔
      (s.limit_reached_paused = true ∨
        s.dot_limit ≤ (Simulation.update b mo dt now ang rnd s).dots.length)) := by
  have hueq : Simulation.update b mo dt now ang rnd s
      = updateTail b mo dt now rnd (spawnStage ang now s) := by
    unfold Simulation.update
    rw [hp]
    simp
  rw [hueq]
  have hsp := spawnStage_facts ang now s
  set s1 := spawnStage ang now s with hs1
  have hlen1 : s1.dots.length ≤ s1.dot_limit := by
    rw [hsp.1]
    exact hsp.2.2.2 hc
  have hcnt : (updateTail b mo dt now rnd s1).dots.length ≤ s1.dot_limit := by
    rw [updateTail_dots, List.length_append]
    exact processDots_final_count b mo dt now rnd s1.dot_limit s1.dots hlen1
  have hflags := updateTail_flags b mo dt now rnd s1
  refine ⟨by rw [← hsp.1]; exact hcnt,
    by rw [updateTail_dot_limit]; exact hsp.1, ?_, ?_⟩
  · rw [hflags.1, hsp.2.1, hp, hsp.2.2.1, hsp.1]
    simp
  · rw [hflags.2, hsp.2.2.1, hsp.1]

/-- A concrete unpaused starting state for the C4 witness. -/
def emptyRunState : SimState :=
  { dots := [], dot_limit := 5, paused := false, limit_reached_paused := false,
    first_unpause := true, last_spawn_time := 0 }

/-- Witness for C4 at a concrete state and boundary. -/
theorem update_respects_cap_witness :
    emptyRunState.paused = false ∧
    emptyRunState.dots.length ≤ emptyRunState.dot_limit ∧
    ((Simulation.update (Boundary.polygon []) 0 1 0 0 (fun _ => (0, 0))
        emptyRunState).dots.length ≤ emptyRunState.dot_limit ∧
      (Simulation.update (Boundary.polygon []) 0 1 0 0 (fun _ => (0, 0))
        emptyRunState).dot_limit = emptyRunState.dot_limit ∧
      ((Simulation.update (Boundary.polygon []) 0 1 0 0 (fun _ => (0, 0))
          emptyRunState).paused = true ↔
        (emptyRunState.limit_reached_paused = false ∧
          emptyRunState.dot_limit ≤ (Simulation.update (Boundary.polygon []) 0 1 0 0
            (fun _ => (0, 0)) emptyRunState).dots.length)) ∧
      ((Simulation.update (Boundary.polygon []) 0 1 0 0 (fun _ => (0, 0))
          emptyRunState).limit_reached_paused = true ↔
        (emptyRunState.limit_reached_paused = true ∨
          emptyRunState.dot_limit ≤ (Simulation.update (Boundary.polygon []) 0 1 0 0
            (fun _ => (0, 0)) emptyRunState).dots.length))) :=
  ⟨rfl, Nat.zero_le 5,
    update_respects_cap (Boundary.polygon []) 0 1 0 0 (fun _ => (0, 0))
      emptyRunState rfl (Nat.zero_le 5)⟩

/-! ### Claim C3: the stored-normal / pending-split invariant -/

/-- The invariant relating the pending-split flag and the stored inward
normal: while the flag is set, a stored normal is present and has unit
length.  (The converse direction of the claim fails on the code: a
capacity-blocked split clears only the flag and leaves the stale normal
stored; see the counterexample.) -/
def DotNormalInv (d : Dot) : Prop :=
  d.needs_split = true → ∃ u, d.last_collision_normal = some u ∧ u.normSq = 1

lemma scale_normSq (c : ℝ) (v : RVec2) :
    (RVec2.scale c v).normSq = c^2 * v.normSq := by
  simp only [RVec2.scale, RVec2.normSq, RVec2.dot]
  ring

lemma normSq_nonneg (v : RVec2) : 0 ≤ v.normSq := by
  simp only [RVec2.normSq, RVec2.dot]
  nlinarith [sq_nonneg v.x, sq_nonneg v.y]

lemma normalize_normSq (v : RVec2) (hv : 0 < v.normSq) : v.normalize.normSq = 1 := by
  rw [RVec2.normalize, scale_normSq, RVec2.length, div_pow, one_pow,
    Real.sq_sqrt (le_of_lt hv)]
  field_simp

lemma mark_for_split_inv (d : Dot) (n : RVec2) (now : ℤ) (h : DotNormalInv d) :
    DotNormalInv (d.mark_for_split n now) := by
  unfold Dot.mark_for_split
  split
  · exact h
  · intro _
    refine ⟨(if n.normSq > 1/1000000000 then n.normalize else ⟨0, -1⟩), rfl, ?_⟩
    split
    · next hn => exact normalize_normSq n (lt_trans (by norm_num) hn)
    · norm_num [RVec2.normSq, RVec2.dot]

lemma move_inv (d : Dot) (dt : ℝ) (h : DotNormalInv d) : DotNormalInv (d.move dt) := h

lemma handle_collisions_circle_inv (radius mo dt : ℝ) (now : ℤ) (d : Dot)
    (h : DotNormalInv d) :
    DotNormalInv (handle_collisions_circle radius mo d dt now).1 := by
  simp only [handle_collisions_circle]
  split
  · split
    · exact mark_for_split_inv _ _ _ h
    · exact mark_for_split_inv _ _ _ h
  · exact h

lemma handle_collisions_polygon_inv (segs : List Segment) (mo dt : ℝ) (now : ℤ) (d : Dot)
    (h : DotNormalInv d) :
    DotNormalInv (handle_collisions_polygon segs mo d dt now).1 := by
  simp only [handle_collisions_polygon]
  split
  · split
    · split
      · exact mark_for_split_inv _ _ _ h
      · exact mark_for_split_inv _ _ _ h
    · split
      · exact mark_for_split_inv _ _ _ h
      · exact mark_for_split_inv _ _ _ h
  · split
    · split
      · split
        · split
          · exact mark_for_split_inv _ _ _ h
          · exact mark_for_split_inv _ _ _ h
        · exact h
      · exact h
    · exact h

lemma stepDot_inv (b : Boundary) (mo dt : ℝ) (now : ℤ) (d : Dot) (h : DotNormalInv d) :
    DotNormalInv (stepDot b mo dt now d) := by
  simp only [stepDot]
  have hhc : DotNormalInv (handle_collisions b mo d dt now).1 := by
    cases b with
    | circle radius => exact handle_collisions_circle_inv radius mo dt now d h
    | polygon segs => exact handle_collisions_polygon_inv segs mo dt now d h
  split
  · exact hhc
  · exact move_inv _ dt hhc

lemma split_child_inv (d : Dot) (r1 r2 : ℝ) :
    ∀ c ∈ (d.split r1 r2).2, c.needs_split = false ∧ c.last_collision_normal = none := by
  intro c hc
  rcases List.mem_cons.mp hc with h1 | h1
  · rw [h1]; exact ⟨rfl, rfl⟩
  · rw [List.mem_singleton.mp h1]; exact ⟨rfl, rfl⟩

lemma processDots_inv (b : Boundary) (mo dt : ℝ) (now : ℤ) (rnd : ℕ → ℝ × ℝ)
    (N L : ℕ) (dots : List Dot) :
    ∀ (i : ℕ) (acc : PassAcc),
      (∀ d ∈ dots, DotNormalInv d) →
      (∀ d ∈ acc.kept, DotNormalInv d) →
      (∀ d ∈ acc.dots_to_add, DotNormalInv d) →
      (∀ d ∈ (processDots b mo dt now rnd N L dots i acc).kept, DotNormalInv d) ∧
      (∀ d ∈ (processDots b mo dt now rnd N L dots i acc).dots_to_add, DotNormalInv d) := by
  induction dots with
  | nil =>
      intro i acc _ hk ha
      simp only [processDots]
      exact ⟨hk, ha⟩
  | cons d rest ih =>
      intro i acc hdots hk ha
      have hd2 : DotNormalInv (stepDot b mo dt now d) :=
        stepDot_inv b mo dt now d (hdots d (List.mem_cons_self d rest))
      have hrest : ∀ x ∈ rest, DotNormalInv x :=
        fun x hx => hdots x (List.mem_cons_of_mem d hx)
      simp only [processDots]
      split
      · split
        · refine ih (i + 1) _ hrest hk ?_
          intro x hx
          rcases List.mem_append.mp hx with h1 | h1
          · exact ha x h1
          · intro hflag
            rcases (split_child_inv _ _ _ x h1).1.symm.trans hflag with h
            cases h
        · refine ih (i + 1) _ hrest ?_ ha
          intro x hx
          rcases List.mem_append.mp hx with h1 | h1
          · exact hk x h1
          · rw [List.mem_singleton.mp h1]
            intro hflag
            cases hflag
      · refine ih (i + 1) _ hrest ?_ ha
        intro x hx
        rcases List.mem_append.mp hx with h1 | h1
        · exact hk x h1
        · rw [List.mem_singleton.mp h1]
          exact hd2

lemma spawnStage_inv (ang : ℝ) (now : ℤ) (s : SimState)
    (h : ∀ d ∈ s.dots, DotNormalInv d) :
    ∀ d ∈ (spawnStage ang now s).dots, DotNormalInv d := by
  unfold spawnStage
  split
  · split
    · intro d hd
      have hd2 : d ∈ s.dots ++
          [Dot.mk' CENTER_X CENTER_Y (fromPolar INITIAL_DOT_SPEED ang).x
            (fromPolar INITIAL_DOT_SPEED ang).y] := hd
      rcases List.mem_append.mp hd2 with h1 | h1
      · exact h d h1
      · rw [List.mem_singleton.mp h1]
        intro hflag
        cases hflag
    · exact h
  · exact h

/-- Claim C3 amended: (i) `mark_for_split` preserves the invariant that
a marked dot stores a non-null unit-length inward normal (establishing
it whenever it marks); (ii) an executed split clears both the parent's
flag and its stored normal, and creates unmarked children with no
stored normal; (iii) the capacity-blocked cancellation (simulation.py
line 201, `dot.needs_split = False`) clears only the flag and leaves
the stale stored normal in place — the particle does NOT revert to
having no stored normal; (iv) the per-tick update preserves the
invariant for every dot in the collection. -/
theorem split_normal_invariant :
    (∀ (d : Dot) (n : RVec2) (now : ℤ),
      DotNormalInv d → DotNormalInv (d.mark_for_split n now)) ∧
    (∀ (d : Dot) (r1 r2 : ℝ),
      (d.split r1 r2).1.needs_split = false ∧
      (d.split r1 r2).1.last_collision_normal = none ∧
      ∀ c ∈ (d.split r1 r2).2, c.needs_split = false ∧ c.last_collision_normal = none) ∧
    (∀ d : Dot, ({ d with needs_split := false } : Dot).last_collision_normal
        = d.last_collision_normal) ∧
    (∀ (b : Boundary) (mo dt : ℝ) (now : ℤ) (ang : ℝ) (rnd : ℕ → ℝ × ℝ) (s : SimState),
      (∀ d ∈ s.dots, DotNormalInv d) →
      ∀ d ∈ (Simulation.update b mo dt now ang rnd s).dots, DotNormalInv d) := by
  refine ⟨mark_for_split_inv, ?_, fun d => rfl, ?_⟩
  · intro d r1 r2
    exact ⟨rfl, rfl, split_child_inv d r1 r2⟩
  · intro b mo dt now ang rnd s h
    unfold Simulation.update
    split
    · exact h
    · intro d hd
      rw [updateTail_dots] at hd
      have hinv := processDots_inv b mo dt now rnd
        (spawnStage ang now s).dots.length (spawnStage ang now s).dot_limit
        (spawnStage ang now s).dots 0 ⟨[], [], 0⟩
        (spawnStage_inv ang now s h)
        (fun x hx => absurd hx (List.not_mem_nil x))
        (fun x hx => absurd hx (List.not_mem_nil x))
      rcases List.mem_append.mp hd with h1 | h1
      · exact hinv.1 d h1
      · exact hinv.2 d h1

/-- A dot whose split deadline has elapsed, carrying a stored normal. -/
noncomputable def blockedDot : Dot :=
  { pos := ⟨0, 0⟩, vel := ⟨0, 0⟩, needs_split := true, split_timer_start := 0,
    last_collision_normal := some ⟨0, -1⟩ }

/-- A state in which `blockedDot` wants to split but the cap (1) blocks
it. -/
noncomputable def splitBlockedState : SimState :=
  { dots := [blockedDot], dot_limit := 1, paused := false,
    limit_reached_paused := false, first_unpause := true, last_spawn_time := 0 }

/-- Counterexample to C3 as stated: running one update at tick 100 (past
the 50 ms split delay) with the cap blocking the split leaves the dot
unmarked (`needs_split = false`) but with its stored inward normal STILL
present (`some (0, -1)`, not cleared), contradicting the claim that the
stored normal is non-null only while the pending-split flag is true and
that a blocked split reverts the particle to having no stored normal. -/
theorem blocked_split_keeps_normal :
    ((Simulation.update (Boundary.polygon []) 0 1 100 0 (fun _ => (0, 0))
        splitBlockedState).dots.map
      (fun d => (d.needs_split, d.last_collision_normal))) =
      [(false, some ⟨0, -1⟩)] := by
  have h1 : spawnStage 0 100 splitBlockedState = splitBlockedState := by
    unfold spawnStage
    rw [if_neg]
    simp [splitBlockedState]
  have h2 : Simulation.update (Boundary.polygon []) 0 1 100 0 (fun _ => (0, 0))
      splitBlockedState
      = updateTail (Boundary.polygon []) 0 1 100 (fun _ => (0, 0)) splitBlockedState := by
    unfold Simulation.update
    rw [h1, if_neg]
    simp [splitBlockedState]
  rw [h2, updateTail_dots]
  have hhc : handle_collisions (Boundary.polygon []) 0 blockedDot 1 100
      = (blockedDot, false) := rfl
  have hstep : stepDot (Boundary.polygon []) 0 1 100 blockedDot = blockedDot.move 1 := by
    simp only [stepDot, hhc]
    simp
  have hsplit : (stepDot (Boundary.polygon []) 0 1 100 blockedDot).should_split 100 = true := by
    rw [hstep]
    simp [Dot.move, Dot.should_split, blockedDot, SPLIT_DELAY]
  simp only [splitBlockedState, processDots, hsplit, if_true]
  rw [if_neg (by norm_num)]
  simp only [processDots, List.nil_append, List.map_cons, List.map_nil]
  rw [hstep]
  simp [Dot.move, blockedDot]

lemma dotWithNormal_inv : DotNormalInv dotWithNormal :=
  fun _ => ⟨⟨1, 0⟩, rfl, by norm_num [RVec2.normSq, RVec2.dot]⟩

lemma splitBlockedState_inv : ∀ d ∈ splitBlockedState.dots, DotNormalInv d := by
  intro d hd
  have hd2 : d ∈ [blockedDot] := hd
  rw [List.mem_singleton.mp hd2]
  exact fun _ => ⟨⟨0, -1⟩, rfl, by norm_num [RVec2.normSq, RVec2.dot]⟩

/-- Witness for C3 (amended) at concrete dots and a concrete update run. -/
theorem split_normal_invariant_witness :
    DotNormalInv dotWithNormal ∧
    DotNormalInv (dotWithNormal.mark_for_split ⟨0, 1⟩ 3) ∧
    (∀ d ∈ splitBlockedState.dots, DotNormalInv d) ∧
    (∀ d ∈ (Simulation.update (Boundary.polygon []) 0 1 100 0 (fun _ => (0, 0))
        splitBlockedState).dots, DotNormalInv d) :=
  ⟨dotWithNormal_inv,
    split_normal_invariant.1 dotWithNormal ⟨0, 1⟩ 3 dotWithNormal_inv,
    splitBlockedState_inv,
    split_normal_invariant.2.2.2 (Boundary.polygon []) 0 1 100 0 (fun _ => (0, 0))
      splitBlockedState splitBlockedState_inv⟩
